import Mathlib

/-!
A shallow embedding of `src/controllers/api/pwa.js`: the PWA directory API
route that serves a record listing (or a single record) as JSON, CSV or an
RSS feed.  Pure data flow is modelled by Lean functions; the asynchronous
parts (promise chains, the `asyncForEach` render loop) are modelled by
explicit `Except` propagation and, for the temporal ordering claims, by an
explicit event trace with a clock.  External collaborators (`pwaLib.find`,
`pwaLib.list`, the handlebars renderer behind `res.render`) are parameters
of the handler, as the spec treats them as external interfaces.
-/

namespace PwaApi

/-- Opaque error value (a rejected promise's reason). -/
structure Err where
  msg : String
deriving Repr, DecidableEq

/-- A timestamp, as the ISO datetime string `new Date(x).toISOString()`
produces it: the calendar-date part (`YYYY-MM-DD`) and the time-of-day
part that follows the `T` separator. -/
structure Timestamp where
  ymd : String
  hms : String
deriving Repr, DecidableEq

/-- `new Date(t).toISOString()`: the full ISO string `ymd ++ "T" ++ hms`. -/
def Timestamp.toISOString (t : Timestamp) : String :=
  t.ymd ++ "T" ++ t.hms

/-- `function getDate(date) { return new Date(date).toISOString().split('T')[0]; }`
`split('T')[0]` is the prefix of the ISO string before the first `'T'`. -/
def getDate (date : Timestamp) : String :=
  String.mk (date.toISOString.data.takeWhile (fun c => c != 'T'))

/-- One stored PWA record, with the fields the route reads.  The quality
metrics are numeric/structured and opaque to this core; they are modelled
as integers. -/
structure Pwa where
  id : String
  displayName : String
  name : String
  description : String
  absoluteStartUrl : String
  manifestUrl : String
  iconUrl128 : String
  lighthouseScore : Int
  webPageTest : Int
  pageSpeed : Int
  created : Timestamp
  updated : Timestamp
deriving Repr, DecidableEq

/-- A JavaScript value appearing in a response body cell / object field. -/
inductive JVal
  | s (v : String)
  | i (v : Int)
deriving Repr, DecidableEq

/-- The body of the one JSON object `JsonWriter.write` builds per record:
the assignments `pwa.id = dbPwa.id; ... pwa.updated = updated;` in source
order, as an association list (so that "exactly these keys, in this
order" is observable). -/
def jsonProject (dbPwa : Pwa) : List (String × JVal) :=
  [("id", JVal.s dbPwa.id),
   ("absoluteStartUrl", JVal.s dbPwa.absoluteStartUrl),
   ("manifestUrl", JVal.s dbPwa.manifestUrl),
   ("lighthouseScore", JVal.i dbPwa.lighthouseScore),
   ("webPageTest", JVal.i dbPwa.webPageTest),
   ("pageSpeed", JVal.i dbPwa.pageSpeed),
   ("created", JVal.s (getDate dbPwa.created)),
   ("updated", JVal.s (getDate dbPwa.updated))]

/-- `JsonWriter.write`: `pwas.forEach(dbPwa => { ... pwaList.push(pwa); })`,
one projected object per record, pushed in iteration order. -/
def JsonWriter.write (pwas : List Pwa) : List (List (String × JVal)) :=
  pwas.map jsonProject

/-- The one CSV line `CsvWriter.write` pushes per record:
`[pwa.id, pwa.absoluteStartUrl, pwa.manifestUrl, pwa.lighthouseScore, created, updated]`. -/
def csvLineOf (pwa : Pwa) : List JVal :=
  [JVal.s pwa.id,
   JVal.s pwa.absoluteStartUrl,
   JVal.s pwa.manifestUrl,
   JVal.i pwa.lighthouseScore,
   JVal.s (getDate pwa.created),
   JVal.s (getDate pwa.updated)]

/-- The header row `csv.unshift(['id', 'absoluteStartUrl', 'manifestUrl',
'lighthouseScore', 'created', 'updated'])`. -/
def csvHeader : List JVal :=
  [JVal.s "id", JVal.s "absoluteStartUrl", JVal.s "manifestUrl",
   JVal.s "lighthouseScore", JVal.s "created", JVal.s "updated"]

/-- `CsvWriter.write`: one line per record in iteration order, then the
header row unshifted to the front. -/
def CsvWriter.write (pwas : List Pwa) : List (List JVal) :=
  csvHeader :: pwas.map csvLineOf

/-- One appended RSS feed item: the argument of `feed.item({...})` built
for one record from its rendered HTML description. -/
structure RssItem where
  title : String
  url : String
  description : String
  guid : String
  date : Timestamp
  thumbnailUrl : String
  altLink : String
deriving Repr, DecidableEq

/-- The `feed.item({...})` payload for one record: title = displayName,
a canonical per-record URL, the rendered fragment as description,
guid = id, `date: pwa.created` (the raw timestamp, not day-truncated),
and the two custom extension element targets. -/
def rssItemOf (pwa : Pwa) (html : String) : RssItem :=
  { title := pwa.displayName
    url := "https://pwa-directory.appspot.com/pwas/" ++ pwa.id
    description := html
    guid := pwa.id
    date := pwa.created
    thumbnailUrl := pwa.iconUrl128
    altLink := "https://pwa-directory.appspot.com/api/pwa/" ++ pwa.id }

/-- The value-level effect of `start`'s `asyncForEach(pwas, async pwa => {
let html = await renderOnePwaRss(...); feed.item({...}); })`: render each
record in list order, appending its item; the first rejected render
rejects the whole loop (the `await` rethrows, no later item is reached). -/
def rssFeedItems (renderer : Pwa → Except Err String) :
    List Pwa → Except Err (List RssItem)
  | [] => Except.ok []
  | pwa :: rest => do
    let html ← renderer pwa
    let items ← rssFeedItems renderer rest
    pure (rssItemOf pwa html :: items)

/-- A terminal response body. -/
inductive Body
  | jsonList (v : List (List (String × JVal)))
  | jsonErr (e : Err)
  | csv (rows : List (List JVal))
  | rss (items : List RssItem)
deriving Repr, DecidableEq

/-- `RssWriter.write`: builds the feed, then calls `start()` WITHOUT
awaiting it and returns.  If every render resolves, `start` sets the
Content-Type header and performs `res.status(200).send(feed.xml())`.
If a render rejects, `start()`'s returned promise rejects unhandled:
the route's `.then` callback has already returned, so the rejection
never reaches the route's `.catch`, and no header is set and no
response write is performed at all.  The result is the pair
(headers set, writes performed) on the response. -/
def RssWriter.write (renderer : Pwa → Except Err String) (pwas : List Pwa) :
    List (String × String) × List (Nat × Body) :=
  match rssFeedItems renderer pwas with
  | Except.ok items =>
      ([("Content-Type", "application/rss+xml")], [(200, Body.rss items)])
  | Except.error _ => ([], [])

/-- The request, as the route reads it: the optional `:id` path parameter
and the raw query-string parameters. -/
structure Request where
  paramId : Option String
  format : Option String
  sort : Option String
  skip : Option String
  limit : Option String
  contentOnly : Option String
deriving Repr, DecidableEq

/-- The observable outcome of one request: headers set on the response,
terminal writes performed (status, body), which formatter `write` methods
ran (ghost observation for the dispatch claims), and the arguments of
each `pwaLib.list` call (ghost observation for the parsing claims). -/
structure Response where
  headers : List (String × String)
  writes : List (Nat × Body)
  formatterInvocations : List String
  listCalls : List (Option Int × Int × String)
deriving Repr, DecidableEq

/-- `parseInt(s, 10)`: skip leading spaces, an optional sign, then the
longest prefix of decimal digits; `none` models `NaN` (no digit found). -/
def parseIntJS (str : String) : Option Int :=
  let cs := str.data.dropWhile (fun c => c = ' ')
  let signed : Int × List Char :=
    match cs with
    | '-' :: rest => (-1, rest)
    | '+' :: rest => (1, rest)
    | _ => (1, cs)
  let ds := signed.2.takeWhile Char.isDigit
  if ds.isEmpty then none
  else some (signed.1 * ((ds.foldl (fun acc c => acc * 10 + (c.toNat - 48)) 0 : Nat) : Int))

/-- `let format = req.query.format || 'json'`: an absent or empty (falsy)
value falls back to `'json'`. -/
def formatOf (q : Option String) : String :=
  match q with
  | none => "json"
  | some s => if s = "" then "json" else s

/-- `let sort = req.query.sort || 'newest'`. -/
def sortOf (q : Option String) : String :=
  match q with
  | none => "newest"
  | some s => if s = "" then "newest" else s

/-- `let skip = parseInt(req.query.skip, 10)`: `none` models `NaN`
(absent query value or no parseable digits). -/
def skipOf (req : Request) : Option Int :=
  req.skip.bind parseIntJS

/-- `let limit = parseInt(req.query.limit, 10) || 100`: `NaN` and `0`
are both falsy, so they fall back to `100`. -/
def limitOf (req : Request) : Int :=
  match req.limit.bind parseIntJS with
  | none => 100
  | some n => if n = 0 then 100 else n

/-- `if (req.params.id)`: the truthiness test — an absent or empty id
takes the listing branch. -/
def paramIdOf (req : Request) : Option String :=
  match req.paramId with
  | none => none
  | some s => if s = "" then none else some s

/-- `CACHE_CONTROL_EXPIRES = 60 * 60 * 1`. -/
def CACHE_CONTROL_EXPIRES : Nat := 60 * 60 * 1

/-- The `Cache-Control` header set by
`res.setHeader('Cache-Control', 'public, max-age=' + CACHE_CONTROL_EXPIRES)`. -/
def cacheControlHeader : String × String :=
  ("Cache-Control", "public, max-age=" ++ toString CACHE_CONTROL_EXPIRES)

/-- The `switch (format)` of the route's `.then(result => ...)`:
`'csv'` and `'rss'` have cases, everything else hits `default` (JSON).
`hs` are the headers already on the response, `calls` the ghost record
of listing calls made earlier in the request. -/
def dispatchFormat (renderer : Pwa → Except Err String) (format : String)
    (pwas : List Pwa) (hs : List (String × String))
    (calls : List (Option Int × Int × String)) : Response :=
  if format = "csv" then
    { headers := hs ++ [("Content-Type", "text/csv")]
      writes := [(200, Body.csv (CsvWriter.write pwas))]
      formatterInvocations := ["csvWriter.write"]
      listCalls := calls }
  else if format = "rss" then
    let r := RssWriter.write renderer pwas
    { headers := hs ++ r.1
      writes := r.2
      formatterInvocations := ["rssWriter.write"]
      listCalls := calls }
  else
    { headers := hs ++ [("Content-Type", "application/json")]
      writes := [(200, Body.jsonList (JsonWriter.write pwas))]
      formatterInvocations := ["jsonWriter.write"]
      listCalls := calls }

/-- The whole `router.get('/:id*?', ...)` handler.
`find` models `pwaLib.find`, `listFn` models `pwaLib.list`, `renderer`
models the per-record `renderOnePwaRss` (the external template renderer
applied to the composed per-record context).

Paths, as in the source promise chain:
* id present and `find` rejects: the inner `.catch` writes 404 + the
  error as JSON; the outer promise never settles, so no format
  branching follows.
* id present and `find` resolves: `{pwas: [onePwa]}` flows to the
  format switch.
* id absent: `resolve(pwaLib.list(skip, limit, sort))`; a rejected
  listing reaches the outer `.catch`, which writes 500 + the error as
  JSON; a resolved listing flows to the format switch. -/
def handleGet (find : String → Except Err Pwa)
    (listFn : Option Int → Int → String → Except Err (List Pwa))
    (renderer : Pwa → Except Err String)
    (req : Request) : Response :=
  let format := formatOf req.format
  let sort := sortOf req.sort
  let skip := skipOf req
  let limit := limitOf req
  let hs := [cacheControlHeader]
  match paramIdOf req with
  | some pid =>
    match find pid with
    | Except.error e =>
        { headers := hs
          writes := [(404, Body.jsonErr e)]
          formatterInvocations := []
          listCalls := [] }
    | Except.ok onePwa => dispatchFormat renderer format [onePwa] hs []
  | none =>
    match listFn skip limit sort with
    | Except.error e =>
        { headers := hs
          writes := [(500, Body.jsonErr e)]
          formatterInvocations := []
          listCalls := [(skip, limit, sort)] }
    | Except.ok pwas => dispatchFormat renderer format pwas hs [(skip, limit, sort)]

/-!
Trace model of the `start` loop, for the temporal ordering claim.
`asyncForEach` is `for (let index = 0; ...) { await callback(array[index], ...) }`:
iteration `index + 1` starts only once the awaited callback of iteration
`index` has completed.  The callback awaits one render and then appends
one feed item.  Each render has an arbitrary completion latency, so the
loop is modelled with an explicit clock: the render of item `idx` begins
at the current clock and completes `lat idx` time units later; the item
is appended at completion time and the loop proceeds at that clock.
-/

/-- One observable event of the feed-build loop, stamped with the clock
at which it happens. -/
inductive REvent
  | beginRender (idx : Nat) (time : Nat)
  | endRender (idx : Nat) (time : Nat)
  | appendItem (idx : Nat) (time : Nat)
deriving Repr, DecidableEq

/-- The event trace of `asyncForEach(pwas, async pwa => { let html = await
renderOnePwaRss(...); feed.item({...}); })` starting at item index `idx`
and clock `clock`, when the render of item `i` takes `lat i` time. -/
def rssLoopTrace (lat : Nat → Nat) : List Pwa → Nat → Nat → List REvent
  | [], _, _ => []
  | _pwa :: rest, idx, clock =>
    REvent.beginRender idx clock ::
    REvent.endRender idx (clock + lat idx) ::
    REvent.appendItem idx (clock + lat idx) ::
    rssLoopTrace lat rest (idx + 1) (clock + lat idx)

/-- Total latency of `k` consecutive renders starting at item `idx`. -/
def latSum (lat : Nat → Nat) (idx : Nat) : Nat → Nat
  | 0 => 0
  | k + 1 => lat idx + latSum lat (idx + 1) k

/-- The item indices in appension order, read off a trace. -/
def appendIndices (trace : List REvent) : List Nat :=
  trace.filterMap (fun e =>
    match e with
    | REvent.appendItem i _ => some i
    | _ => none)

/-!  Concrete sample data used by the witness and counterexample theorems. -/

/-- A sample timestamp: `2020-01-02T10:00:00.000Z`. -/
def tsA : Timestamp := { ymd := "2020-01-02", hms := "10:00:00.000Z" }

/-- A sample timestamp: `2020-01-05T00:00:00.000Z`. -/
def tsB : Timestamp := { ymd := "2020-01-05", hms := "00:00:00.000Z" }

/-- A sample record. -/
def pwaA : Pwa :=
  { id := "a", displayName := "Foo", name := "foo", description := "first app"
    absoluteStartUrl := "https://a.example/", manifestUrl := "https://a.example/manifest.json"
    iconUrl128 := "https://a.example/icon128.png"
    lighthouseScore := 90, webPageTest := 1, pageSpeed := 2
    created := tsA, updated := tsA }

/-- A second sample record. -/
def pwaB : Pwa :=
  { id := "b", displayName := "Bar", name := "bar", description := "second app"
    absoluteStartUrl := "https://b.example/", manifestUrl := "https://b.example/manifest.json"
    iconUrl128 := "https://b.example/icon128.png"
    lighthouseScore := 75, webPageTest := 3, pageSpeed := 4
    created := tsB, updated := tsB }

/-- The error a failing render rejects with. -/
def errRender : Err := { msg := "render failed" }

/-- The error the record store rejects a lookup with. -/
def errNotFound : Err := { msg := "not found" }

/-- A `pwaLib.find` stub that always rejects (unknown id). -/
def findStub : String → Except Err Pwa := fun _ => Except.error errNotFound

/-- A `pwaLib.list` stub resolving with the one-record listing `[pwaA]`. -/
def listOneA : Option Int → Int → String → Except Err (List Pwa) :=
  fun _ _ _ => Except.ok [pwaA]

/-- A renderer stub whose render always rejects. -/
def failingRenderer : Pwa → Except Err String := fun _ => Except.error errRender

/-- A renderer stub whose render always resolves. -/
def okRenderer : Pwa → Except Err String := fun pwa => Except.ok ("<p>" ++ pwa.name ++ "</p>")

/-- A request for `GET /api/pwa?format=rss` (no id, no paging parameters). -/
def reqRss : Request :=
  { paramId := none, format := some "rss", sort := none, skip := none
    limit := none, contentOnly := none }

/-- A request for `GET /api/pwa/zzz` (single-record mode, no query). -/
def reqIdZ : Request :=
  { paramId := some "zzz", format := none, sort := none, skip := none
    limit := none, contentOnly := none }

/-- A request for `GET /api/pwa` with no query parameters at all. -/
def reqPlain : Request :=
  { paramId := none, format := none, sort := none, skip := none
    limit := none, contentOnly := none }

/-- A request for `GET /api/pwa?format=xml&skip=abc&limit=0`. -/
def reqOddQuery : Request :=
  { paramId := none, format := some "xml", sort := none, skip := some "abc"
    limit := some "0", contentOnly := none }

/-! ## Helper lemmas -/

/-- `takeWhile` keeps exactly a prefix on which `p` holds when the
element right after it fails `p`. -/
theorem takeWhile_append_cons (p : Char → Bool) (xs ys : List Char) (y : Char)
    (hxs : ∀ x ∈ xs, p x = true) (hy : p y = false) :
    (xs ++ y :: ys).takeWhile p = xs := by
  induction xs with
  | nil => simp [List.takeWhile_cons, hy]
  | cons a l ih =>
    have ha : p a = true := hxs a (List.mem_cons_self a l)
    simp [List.takeWhile_cons, ha, ih (fun x hx => hxs x (List.mem_cons_of_mem a hx))]

/-- When the calendar-date part contains no `'T'`, `getDate` recovers it
exactly: `split('T')[0]` of `ymd ++ "T" ++ hms` is `ymd`. -/
theorem getDate_eq_ymd (t : Timestamp) (h : 'T' ∉ t.ymd.data) : getDate t = t.ymd := by
  have hxs : ∀ x ∈ t.ymd.data, (x != 'T') = true := by
    intro x hx
    have hne : x ≠ 'T' := fun hxT => h (hxT ▸ hx)
    simpa using hne
  have hy : (('T' : Char) != 'T') = false := by simp
  have hdata : t.toISOString.data = t.ymd.data ++ 'T' :: t.hms.data := by
    simp [Timestamp.toISOString, String.data_append]
  show String.mk (t.toISOString.data.takeWhile (fun c => c != 'T')) = t.ymd
  rw [hdata, takeWhile_append_cons _ _ _ _ hxs hy]

/-- Every branch of the format switch only appends to the headers already
set on the response. -/
theorem mem_dispatchFormat_headers (renderer : Pwa → Except Err String)
    (format : String) (pwas : List Pwa) (hs : List (String × String))
    (calls : List (Option Int × Int × String)) (x : String × String) (hx : x ∈ hs) :
    x ∈ (dispatchFormat renderer format pwas hs calls).headers := by
  unfold dispatchFormat
  split_ifs <;> simp [List.mem_append, hx]

/-- The format switch never adds a listing call: it passes the ghost
record through unchanged. -/
theorem dispatchFormat_listCalls (renderer : Pwa → Except Err String)
    (format : String) (pwas : List Pwa) (hs : List (String × String))
    (calls : List (Option Int × Int × String)) :
    (dispatchFormat renderer format pwas hs calls).listCalls = calls := by
  unfold dispatchFormat
  split_ifs <;> rfl

/-- `formatOf` only produces `v ≠ "json"` when the query value was
literally `v`. -/
theorem formatOf_ne (q : Option String) (v : String) (hv : "json" ≠ v)
    (hne : q ≠ some v) : formatOf q ≠ v := by
  unfold formatOf
  cases q with
  | none => exact hv
  | some s =>
    by_cases hse : s = ""
    · simpa [hse] using hv
    · simp only [hse, if_false]
      intro hsv
      exact hne (congrArg some hsv)

/-! ## Claim theorems -/

/-- C5: for every input record list, the CSV output has exactly
`length + 1` rows: the fixed header row first, followed by one data row
per record in the same order as the input list, with no re-sorting. -/
theorem C5_csv_row_count_and_order (pwas : List Pwa) :
    (CsvWriter.write pwas).length = pwas.length + 1
    ∧ (CsvWriter.write pwas)[0]? = some csvHeader
    ∧ ∀ i : Nat, (CsvWriter.write pwas)[i + 1]? = (pwas[i]?).map csvLineOf := by
  refine ⟨by simp [CsvWriter.write], by simp [CsvWriter.write], fun i => ?_⟩
  simp [CsvWriter.write, List.getElem?_cons_succ, List.getElem?_map]

/-- C9: every response, on every path — including the 404 not-found and
500 internal-error paths — carries the Cache-Control header, because it
is set unconditionally before the lookup/listing promise; its value is
`public, max-age=3600`. -/
theorem C9_cache_control_on_every_path (find : String → Except Err Pwa)
    (listFn : Option Int → Int → String → Except Err (List Pwa))
    (renderer : Pwa → Except Err String) (req : Request) :
    cacheControlHeader ∈ (handleGet find listFn renderer req).headers
    ∧ cacheControlHeader = ("Cache-Control", "public, max-age=3600") := by
  refine ⟨?_, rfl⟩
  simp only [handleGet]
  split
  · split
    · simp
    · exact mem_dispatchFormat_headers _ _ _ _ _ _ (by simp)
  · split
    · simp
    · exact mem_dispatchFormat_headers _ _ _ _ _ _ (by simp)

/-- C10: an explicit query-string limit of 0 — and any value whose
integer parse is 0 or NaN — is replaced by the default 100, so the limit
passed to the listing call is never 0 (and, being a total integer in
this model, never NaN). -/
theorem C10_limit_zero_replaced (req : Request) :
    (∀ s, req.limit = some s →
        (parseIntJS s = none ∨ parseIntJS s = some 0) → limitOf req = 100)
    ∧ limitOf req ≠ 0 := by
  constructor
  · intro s hs hparse
    rcases hparse with h | h <;> simp [limitOf, hs, h]
  · unfold limitOf
    cases h : req.limit.bind parseIntJS with
    | none => simp
    | some n =>
      by_cases hn : n = 0 <;> simp [hn]

/-- Witness for C10: `limit=0` in the query string yields limit 100. -/
theorem C10_limit_zero_replaced_witness :
    limitOf reqOddQuery = 100 ∧ limitOf reqOddQuery ≠ 0 := by
  have h := C10_limit_zero_replaced reqOddQuery
  exact ⟨h.1 "0" rfl (Or.inr (by decide)), h.2⟩

/-- C8: the skip parameter passed to the listing call is unset when the
query-string skip is absent or non-numeric (its parse is NaN); the limit
defaults to 100 when absent; and the listing call receives exactly these
parsed values. -/
theorem C8_skip_limit_defaults (find : String → Except Err Pwa)
    (listFn : Option Int → Int → String → Except Err (List Pwa))
    (renderer : Pwa → Except Err String) (req : Request) :
    (req.skip = none → skipOf req = none)
    ∧ (∀ s, req.skip = some s → parseIntJS s = none → skipOf req = none)
    ∧ (req.limit = none → limitOf req = 100)
    ∧ (paramIdOf req = none →
        (handleGet find listFn renderer req).listCalls
          = [(skipOf req, limitOf req, sortOf req.sort)]) := by
  refine ⟨fun h => by simp [skipOf, h], fun s hs hp => by simp [skipOf, hs, hp],
    fun h => by simp [limitOf, h], fun hpid => ?_⟩
  simp only [handleGet, hpid]
  split
  · rfl
  · exact dispatchFormat_listCalls _ _ _ _ _

/-- Witness for C8 at the request with no query parameters at all. -/
theorem C8_skip_limit_defaults_witness :
    skipOf reqPlain = none ∧ limitOf reqPlain = 100
    ∧ (handleGet findStub listOneA okRenderer reqPlain).listCalls
        = [(skipOf reqPlain, limitOf reqPlain, sortOf reqPlain.sort)] := by
  have h := C8_skip_limit_defaults findStub listOneA okRenderer reqPlain
  exact ⟨h.1 rfl, h.2.2.1 rfl, h.2.2.2 rfl⟩

/-- C7: in single-record mode, when the lookup rejects, the response is
exactly one 404 write (never 200 or 500) carrying the error payload, and
no formatter `write` runs on that path. -/
theorem C7_not_found_404 (find : String → Except Err Pwa)
    (listFn : Option Int → Int → String → Except Err (List Pwa))
    (renderer : Pwa → Except Err String) (req : Request) (pid : String) (e : Err)
    (hpid : paramIdOf req = some pid) (hfind : find pid = Except.error e) :
    handleGet find listFn renderer req =
      { headers := [cacheControlHeader]
        writes := [(404, Body.jsonErr e)]
        formatterInvocations := []
        listCalls := [] } := by
  simp [handleGet, hpid, hfind]

/-- Witness for C7: looking up the unknown id `zzz`. -/
theorem C7_not_found_404_witness :
    handleGet findStub listOneA okRenderer reqIdZ =
      { headers := [cacheControlHeader]
        writes := [(404, Body.jsonErr errNotFound)]
        formatterInvocations := []
        listCalls := [] } :=
  C7_not_found_404 findStub listOneA okRenderer reqIdZ "zzz" errNotFound (by rfl) rfl

/-- C4: whenever the format parameter is absent or any value other than
`csv` or `rss`, the dispatcher writes the JSON projection: one object
per record in input order, each having exactly the eight keys in source
order. -/
theorem C4_json_default (pwas : List Pwa) (q : Option String)
    (renderer : Pwa → Except Err String) (hs : List (String × String))
    (calls : List (Option Int × Int × String))
    (hcsv : q ≠ some "csv") (hrss : q ≠ some "rss") :
    (dispatchFormat renderer (formatOf q) pwas hs calls).writes
        = [(200, Body.jsonList (pwas.map jsonProject))]
    ∧ ∀ pwa : Pwa, (jsonProject pwa).map Prod.fst =
        ["id", "absoluteStartUrl", "manifestUrl", "lighthouseScore",
         "webPageTest", "pageSpeed", "created", "updated"] := by
  refine ⟨?_, fun pwa => by simp [jsonProject]⟩
  have h1 : formatOf q ≠ "csv" := formatOf_ne q "csv" (by decide) hcsv
  have h2 : formatOf q ≠ "rss" := formatOf_ne q "rss" (by decide) hrss
  simp [dispatchFormat, h1, h2, JsonWriter.write]

/-- Witness for C4 at the unrecognized format value `xml`. -/
theorem C4_json_default_witness :
    (dispatchFormat okRenderer (formatOf (some "xml")) [pwaA] [] []).writes
      = [(200, Body.jsonList ([pwaA].map jsonProject))] := by
  have h := C4_json_default [pwaA] (some "xml") okRenderer [] [] (by decide) (by decide)
  exact h.1

/-- C6: the created and updated fields in both the JSON and CSV
projections are the record's timestamps truncated to calendar-day
precision, while the RSS feed item's publish date is the raw,
untruncated created timestamp. -/
theorem C6_date_precision (pwa : Pwa) (html : String)
    (h1 : 'T' ∉ pwa.created.ymd.data) (h2 : 'T' ∉ pwa.updated.ymd.data) :
    (jsonProject pwa).lookup "created" = some (JVal.s pwa.created.ymd)
    ∧ (jsonProject pwa).lookup "updated" = some (JVal.s pwa.updated.ymd)
    ∧ (csvLineOf pwa)[4]? = some (JVal.s pwa.created.ymd)
    ∧ (csvLineOf pwa)[5]? = some (JVal.s pwa.updated.ymd)
    ∧ (rssItemOf pwa html).date = pwa.created := by
  have g1 := getDate_eq_ymd pwa.created h1
  have g2 := getDate_eq_ymd pwa.updated h2
  refine ⟨?_, ?_, ?_, ?_, rfl⟩ <;> simp [jsonProject, csvLineOf, g1, g2, List.lookup]

/-- Witness for C6 at the sample record `pwaA`. -/
theorem C6_date_precision_witness :
    (jsonProject pwaA).lookup "created" = some (JVal.s "2020-01-02")
    ∧ (rssItemOf pwaA "<p>foo</p>").date = tsA := by
  have h := C6_date_precision pwaA "<p>foo</p>" (by decide) (by decide)
  exact ⟨h.1, h.2.2.2.2⟩

/-- Under an always-resolving renderer the feed build resolves with the
items of the input records, in input order. -/
theorem rssFeedItems_ok (render : Pwa → String) (pwas : List Pwa) :
    rssFeedItems (fun p => Except.ok (render p)) pwas
      = Except.ok (pwas.map (fun p => rssItemOf p (render p))) := by
  induction pwas with
  | nil => rfl
  | cons p rest ih =>
    simp only [rssFeedItems, ih, List.map_cons]
    rfl

/-- Peeling the last render off a latency sum. -/
theorem latSum_succ (lat : Nat → Nat) (idx k : Nat) :
    latSum lat idx (k + 1) = latSum lat idx k + lat (idx + k) := by
  induction k generalizing idx with
  | zero => simp [latSum]
  | succ k ih =>
    show lat idx + latSum lat (idx + 1) (k + 1)
        = latSum lat idx (k + 1) + lat (idx + (k + 1))
    rw [ih (idx + 1)]
    show lat idx + (latSum lat (idx + 1) k + lat (idx + 1 + k))
        = lat idx + latSum lat (idx + 1) k + lat (idx + (k + 1))
    have harg : idx + 1 + k = idx + (k + 1) := by omega
    rw [harg, Nat.add_assoc]

/-- Where and when `endRender` events occur in the loop trace. -/
theorem mem_endRender_iff (lat : Nat → Nat) (pwas : List Pwa)
    (idx clock j t : Nat) :
    REvent.endRender j t ∈ rssLoopTrace lat pwas idx clock ↔
      ∃ k, k < pwas.length ∧ j = idx + k
        ∧ t = clock + latSum lat idx k + lat (idx + k) := by
  induction pwas generalizing idx clock with
  | nil => simp [rssLoopTrace]
  | cons p rest ih =>
    simp only [rssLoopTrace, List.mem_cons, ih, List.length_cons]
    constructor
    · rintro (h | h | h | ⟨k, hk, hj, ht⟩)
      · simp at h
      · simp only [REvent.endRender.injEq] at h
        refine ⟨0, by omega, by omega, ?_⟩
        simp only [latSum, Nat.add_zero, Nat.zero_add]
        omega
      · simp at h
      · refine ⟨k + 1, by omega, by omega, ?_⟩
        simp only [latSum]
        have harg : idx + 1 + k = idx + (k + 1) := by omega
        rw [← harg]
        omega
    · rintro ⟨k, hk, hj, ht⟩
      cases k with
      | zero =>
        refine Or.inr (Or.inl ?_)
        simp only [latSum, Nat.add_zero, Nat.zero_add] at ht
        simp only [REvent.endRender.injEq]
        omega
      | succ k =>
        refine Or.inr (Or.inr (Or.inr ⟨k, by omega, by omega, ?_⟩))
        simp only [latSum] at ht
        have harg : idx + 1 + k = idx + (k + 1) := by omega
        rw [harg]
        omega

/-- Where and when `beginRender` events occur in the loop trace. -/
theorem mem_beginRender_iff (lat : Nat → Nat) (pwas : List Pwa)
    (idx clock j t : Nat) :
    REvent.beginRender j t ∈ rssLoopTrace lat pwas idx clock ↔
      ∃ k, k < pwas.length ∧ j = idx + k ∧ t = clock + latSum lat idx k := by
  induction pwas generalizing idx clock with
  | nil => simp [rssLoopTrace]
  | cons p rest ih =>
    simp only [rssLoopTrace, List.mem_cons, ih, List.length_cons]
    constructor
    · rintro (h | h | h | ⟨k, hk, hj, ht⟩)
      · simp only [REvent.beginRender.injEq] at h
        refine ⟨0, by omega, by omega, ?_⟩
        simp only [latSum, Nat.add_zero]
        omega
      · simp at h
      · simp at h
      · refine ⟨k + 1, by omega, by omega, ?_⟩
        simp only [latSum]
        omega
    · rintro ⟨k, hk, hj, ht⟩
      cases k with
      | zero =>
        refine Or.inl ?_
        simp only [latSum, Nat.add_zero] at ht
        simp only [REvent.beginRender.injEq]
        omega
      | succ k =>
        refine Or.inr (Or.inr (Or.inr ⟨k, by omega, by omega, ?_⟩))
        simp only [latSum] at ht
        omega

/-- The items are appended in exactly index order. -/
theorem appendIndices_rssLoopTrace (lat : Nat → Nat) (pwas : List Pwa)
    (idx clock : Nat) :
    appendIndices (rssLoopTrace lat pwas idx clock)
      = List.range' idx pwas.length := by
  induction pwas generalizing idx clock with
  | nil => rfl
  | cons p rest ih =>
    have hstep : appendIndices (rssLoopTrace lat (p :: rest) idx clock)
        = idx :: appendIndices (rssLoopTrace lat rest (idx + 1) (clock + lat idx)) := rfl
    rw [hstep, ih, List.length_cons, List.range'_succ]

/-- C3: feed assembly is strictly sequential and order-preserving: for
every latency assignment, the render of record N is complete when the
render of record N+1 begins (their trace times coincide), items are
appended in exactly input index order, and the resulting feed item list
is the image of the input list in input order, independent of the
latencies. -/
theorem C3_sequential_ordered_feed (lat : Nat → Nat) (pwas : List Pwa)
    (render : Pwa → String) :
    rssFeedItems (fun p => Except.ok (render p)) pwas
      = Except.ok (pwas.map (fun p => rssItemOf p (render p)))
    ∧ appendIndices (rssLoopTrace lat pwas 0 0) = List.range pwas.length
    ∧ ∀ i t t', REvent.endRender i t ∈ rssLoopTrace lat pwas 0 0 →
        REvent.beginRender (i + 1) t' ∈ rssLoopTrace lat pwas 0 0 → t ≤ t' := by
  refine ⟨rssFeedItems_ok render pwas, ?_, ?_⟩
  · rw [appendIndices_rssLoopTrace, List.range_eq_range']
  · intro i t t' hend hbegin
    rw [mem_endRender_iff] at hend
    rw [mem_beginRender_iff] at hbegin
    obtain ⟨k, hk, hj, ht⟩ := hend
    obtain ⟨k', hk', hj', ht'⟩ := hbegin
    have hsum := latSum_succ lat 0 k
    have hkk : k' = k + 1 := by omega
    rw [hkk] at ht'
    omega

/-- Witness for C3: with latencies `lat i = i + 1` on the two-record
listing, the render of record 0 completes at time 1 and the render of
record 1 begins at time 1. -/
theorem C3_sequential_ordered_feed_witness :
    REvent.endRender 0 1 ∈ rssLoopTrace (fun i => i + 1) [pwaA, pwaB] 0 0
    ∧ REvent.beginRender 1 1 ∈ rssLoopTrace (fun i => i + 1) [pwaA, pwaB] 0 0
    ∧ (1 : Nat) ≤ 1 := by
  have m1 : REvent.endRender 0 1 ∈ rssLoopTrace (fun i => i + 1) [pwaA, pwaB] 0 0 := by
    decide
  have m2 : REvent.beginRender 1 1 ∈ rssLoopTrace (fun i => i + 1) [pwaA, pwaB] 0 0 := by
    decide
  exact ⟨m1, m2,
    (C3_sequential_ordered_feed (fun i => i + 1) [pwaA, pwaB]
      (fun p => p.id)).2.2 0 1 1 m1 m2⟩

/-- C1 (counter-evidence): the claim asserts exactly one terminal
response write on every path; but on `GET /api/pwa?format=rss` with a
one-record listing whose fragment render rejects, the handler performs
ZERO response writes — `start()` is invoked without being awaited, the
route's `.then` callback has already returned, so the rejection never
reaches the `.catch` and neither a success body nor an error body is
sent. -/
theorem C1_rss_render_failure_zero_writes :
    (handleGet findStub listOneA failingRenderer reqRss).writes = [] := by
  rfl

/-- C2 (counter-evidence): on the same input the feed build does fail at
the rejected render, but the rejection does not propagate to the
dispatch layer's generic error path: no write with status 500 (indeed no
write at all) occurs. -/
theorem C2_render_rejection_unpropagated :
    rssFeedItems failingRenderer [pwaA] = Except.error errRender
    ∧ ((handleGet findStub listOneA failingRenderer reqRss).writes.filter
        (fun w => w.1 == 500)) = [] := by
  exact ⟨rfl, rfl⟩

end PwaApi
